import Mathlib

/-
Verification of the veloce in-memory TTL cache (Go package veloce).

Modelling conventions:
- Go time instants (time.Now().UnixNano()) are Int nanoseconds, passed as an
  explicit parameter called now; durations (time.Duration) are Int nanoseconds.
- The Go map from string to Item is a list of key-item pairs; lookupKey,
  eraseKey and setItem mirror map read, delete and assignment; well-formed
  states have no duplicate keys (KeysNodup).
- interface-typed payloads are the inductive GoVal, one constructor per
  dynamic type the cache inspects; fixed-width integer arithmetic wraps via
  an explicit mod 2 pow w; IEEE-754 float payloads are modelled as exact
  rationals, since no property in scope depends on rounding behaviour.
- The eviction callback is modelled by a Bool flag (onEvicted registered or
  nil) plus, on each mutating operation, the returned list of key-value
  pairs the callback is invoked with; locking is elided (all operations are
  modelled as atomic state transformers, which is what the mutex provides).
- Fallible operations return an Option GoErr (nil error or an error value
  mirroring the fmt.Errorf messages) or an Except GoErr alpha when the Go
  function also returns a value.
-/

namespace Veloce

/-- Payload of an Item: one constructor per dynamic Go type the cache ever
inspects with a type switch or type assertion, plus vStr standing for any
non-numeric payload. Float payloads are exact rationals. -/
inductive GoVal where
  | vInt (a : Int)
  | vInt8 (a : Int)
  | vInt16 (a : Int)
  | vInt32 (a : Int)
  | vInt64 (a : Int)
  | vUint (a : Int)
  | vUintptr (a : Int)
  | vUint8 (a : Int)
  | vUint16 (a : Int)
  | vUint32 (a : Int)
  | vUint64 (a : Int)
  | vFloat32 (q : Rat)
  | vFloat64 (q : Rat)
  | vStr (s : String)
  deriving DecidableEq, Repr

/-- Errors returned by cache operations, one constructor per fmt.Errorf
call site in the source (the format string is noted on each). -/
inductive GoErr where
  /-- Item %s already exists (Add) -/
  | alreadyExists (key : String)
  /-- Item %s does not exist (Replace; the Go message spells it without the o) -/
  | doesNotExist (key : String)
  /-- Item %s not found (all Increment variants) -/
  | notFound (key : String)
  /-- The value for %s is not an integer (generic Increment default case) -/
  | notAnInteger (key : String)
  /-- The value for %s is not type of float32 or float64 (IncrementFloat) -/
  | notFloat (key : String)
  /-- The value for %s is not an T (width-specific increments) -/
  | notOfType (tyName : String) (key : String)
  deriving DecidableEq, Repr

/-- Item: the stored unit, a payload plus an absolute expiration in
nanoseconds where 0 means no expiration. -/
structure Item where
  Object : GoVal
  Expiration : Int
  deriving DecidableEq, Repr

/-- Item.Expired: true when Expiration is nonzero and time.Now().UnixNano()
is strictly past it. -/
def Item.Expired (item : Item) (now : Int) : Bool :=
  if item.Expiration = 0 then false
  else decide (item.Expiration < now)

/-- The expiry test used on every read path (Get, get, Items,
DeleteExpired): item.Expiration is positive and now is strictly past it. -/
def expiredForRead (item : Item) (now : Int) : Bool :=
  decide (0 < item.Expiration) && decide (item.Expiration < now)

/-- NoExpiration sentinel duration. -/
def NoExpiration : Int := -1

/-- DefaultExpiration sentinel duration: use the default given to New. -/
def DefaultExpiration : Int := 0

/-- Go map read items[key]. -/
def lookupKey : List (String × Item) → String → Option Item
  | [], _ => none
  | (k, it) :: rest, key => if k = key then some it else lookupKey rest key

/-- Go builtin delete(items, key). -/
def eraseKey : List (String × Item) → String → List (String × Item)
  | [], _ => []
  | (k, it) :: rest, key =>
    if k = key then eraseKey rest key else (k, it) :: eraseKey rest key

/-- Go map assignment items[key] = it. -/
def setItem (items : List (String × Item)) (key : String) (it : Item) :
    List (String × Item) :=
  (key, it) :: eraseKey items key

/-- Well-formedness of the modelled map: keys occur at most once, as they do
in a Go map. -/
def KeysNodup (items : List (String × Item)) : Prop :=
  (items.map Prod.fst).Nodup

/-- The cache struct. defaultExpiration and items mirror the source fields;
onEvicted records whether an eviction callback is registered (the callback
body itself is external code, observed through the event lists the
operations return). The janitor pointer carries no map state and is not
modelled. -/
structure cache where
  defaultExpiration : Int
  items : List (String × Item)
  onEvicted : Bool
  deriving DecidableEq, Repr

/-- Set: unconditional insert or overwrite. Duration 0 resolves to the
default; the expiration is now plus duration only when the resolved
duration is positive, else 0 (never expires). -/
def Set (c : cache) (key : String) (value : GoVal) (duration now : Int) :
    cache :=
  let duration := if duration = DefaultExpiration then c.defaultExpiration
    else duration
  let expiration : Int := if 0 < duration then now + duration else 0
  { c with items := setItem c.items key ⟨value, expiration⟩ }

/-- The unexported set: same body as Set minus the locking. -/
def set (c : cache) (key : String) (value : GoVal) (duration now : Int) :
    cache :=
  let duration := if duration = DefaultExpiration then c.defaultExpiration
    else duration
  let expiration : Int := if 0 < duration then now + duration else 0
  { c with items := setItem c.items key ⟨value, expiration⟩ }

/-- SetDefault: calls Set with the DefaultExpiration sentinel. -/
def SetDefault (c : cache) (key : String) (value : GoVal) (now : Int) :
    cache :=
  Set c key value DefaultExpiration now

/-- A second definition, written from the wording of claim C10 rather than
from the SetDefault source: an unconditional Set under the default TTL. -/
def SetDefaultSpec (c : cache) (key : String) (value : GoVal) (now : Int) :
    cache :=
  Set c key value DefaultExpiration now

/-- Get: nil and false when the key is absent, or when a positive
expiration is strictly past; the stored payload and true otherwise. -/
def Get (c : cache) (key : String) (now : Int) : Option GoVal :=
  match lookupKey c.items key with
  | none => none
  | some item =>
    if 0 < item.Expiration then
      if item.Expiration < now then none
      else some item.Object
    else some item.Object

/-- The unexported get: same body as Get minus the locking. -/
def get (c : cache) (key : String) (now : Int) : Option GoVal :=
  match lookupKey c.items key with
  | none => none
  | some item =>
    if 0 < item.Expiration then
      if item.Expiration < now then none
      else some item.Object
    else some item.Object

/-- Add: error when the unexported get finds the key, otherwise set. -/
def Add (c : cache) (key : String) (value : GoVal) (duration now : Int) :
    Option GoErr × cache :=
  match get c key now with
  | some _ => (some (GoErr.alreadyExists key), c)
  | none => (none, set c key value duration now)

/-- Replace: error when the unexported get misses, otherwise set. -/
def Replace (c : cache) (key : String) (value : GoVal) (duration now : Int) :
    Option GoErr × cache :=
  match get c key now with
  | none => (some (GoErr.doesNotExist key), c)
  | some _ => (none, set c key value duration now)

/-- The unexported delete helper: always removes the key; reports the
removed payload only when a callback is registered and the key was
present (that is the condition under which Delete later fires it). -/
def delete (c : cache) (key : String) : cache × Option GoVal :=
  if c.onEvicted then
    match lookupKey c.items key with
    | some item => ({ c with items := eraseKey c.items key }, some item.Object)
    | none => ({ c with items := eraseKey c.items key }, none)
  else
    ({ c with items := eraseKey c.items key }, none)

/-- Delete: removes the key and, when the helper reports an eviction,
invokes the callback once with that pair (second component: the list of
callback invocations, in order). -/
def Delete (c : cache) (key : String) : cache × List (String × GoVal) :=
  match delete c key with
  | (c2, some v) => (c2, [(key, v)])
  | (c2, none) => (c2, [])

/-- DeleteExpired: removes every item whose positive expiration is strictly
past now, then invokes the callback once per collected victim. The Go loop
ranges over the map deleting per key; since map keys are unique this is a
filter, and a victim is collected exactly when the helper reports the
eviction, that is when a callback is registered. -/
def DeleteExpired (c : cache) (now : Int) : cache × List (String × GoVal) :=
  let evictedItems :=
    if c.onEvicted then
      (c.items.filter (fun p => expiredForRead p.2 now)).map
        (fun p => (p.1, p.2.Object))
    else []
  ({ c with items := c.items.filter (fun p => !expiredForRead p.2 now) },
    evictedItems)

/-- OnEvicted: registers or clears the eviction callback. -/
def OnEvicted (c : cache) (registered : Bool) : cache :=
  { c with onEvicted := registered }

/-- Items: copies every item that is not expired for reading into a fresh
map; the receiver is not mutated (the function only reads c). -/
def Items (c : cache) (now : Int) : List (String × Item) :=
  c.items.filter (fun p => !expiredForRead p.2 now)

/-- ItemCount: the number of physically stored items, expired included. -/
def ItemCount (c : cache) : Nat :=
  c.items.length

/-- Flush: replaces the map with an empty one; fires no callback (the
returned invocation list is empty). -/
def Flush (c : cache) : cache × List (String × GoVal) :=
  ({ c with items := [] }, [])

/-- newCache: a zero default duration is normalized to -1 at construction;
the items map is caller-supplied; no callback is registered (nil). -/
def newCache (duration : Int) (cacheItems : List (String × Item)) : cache :=
  let duration := if duration = 0 then -1 else duration
  { defaultExpiration := duration, items := cacheItems, onEvicted := false }

/-- Wrap an unbounded integer to w-bit unsigned range, as Go unsigned
arithmetic does. -/
def wrapU (w : Nat) (x : Int) : Int :=
  x % (2 ^ w : Int)

/-- Wrap an unbounded integer to w-bit twos-complement signed range, as Go
signed arithmetic does. -/
def wrapS (w : Nat) (x : Int) : Int :=
  let r := x % (2 ^ w : Int)
  if r < 2 ^ (w - 1) then r else r - 2 ^ w

/-- w-bit signed addition. -/
def intAdd (w : Nat) (a b : Int) : Int :=
  wrapS w (a + b)

/-- w-bit unsigned addition. -/
def uintAdd (w : Nat) (a b : Int) : Int :=
  wrapU w (a + b)

/-- Exact rational addition, standing for the float additions. -/
def ratAdd (a b : Rat) : Rat :=
  a + b

/-- The type switch of the generic Increment: per numeric case, convert the
int64 argument n to the stored width and add at that width (Go int, uint
and uintptr are 64-bit here); nil on a non-numeric payload. -/
def addToVal : GoVal → Int → Option GoVal
  | GoVal.vInt a, n => some (GoVal.vInt (wrapS 64 (a + n)))
  | GoVal.vInt8 a, n => some (GoVal.vInt8 (wrapS 8 (a + wrapS 8 n)))
  | GoVal.vInt16 a, n => some (GoVal.vInt16 (wrapS 16 (a + wrapS 16 n)))
  | GoVal.vInt32 a, n => some (GoVal.vInt32 (wrapS 32 (a + wrapS 32 n)))
  | GoVal.vInt64 a, n => some (GoVal.vInt64 (wrapS 64 (a + n)))
  | GoVal.vUint a, n => some (GoVal.vUint (wrapU 64 (a + wrapU 64 n)))
  | GoVal.vUintptr a, n => some (GoVal.vUintptr (wrapU 64 (a + wrapU 64 n)))
  | GoVal.vUint8 a, n => some (GoVal.vUint8 (wrapU 8 (a + wrapU 8 n)))
  | GoVal.vUint16 a, n => some (GoVal.vUint16 (wrapU 16 (a + wrapU 16 n)))
  | GoVal.vUint32 a, n => some (GoVal.vUint32 (wrapU 32 (a + wrapU 32 n)))
  | GoVal.vUint64 a, n => some (GoVal.vUint64 (wrapU 64 (a + wrapU 64 n)))
  | GoVal.vFloat32 a, n => some (GoVal.vFloat32 (a + (n : Rat)))
  | GoVal.vFloat64 a, n => some (GoVal.vFloat64 (a + (n : Rat)))
  | GoVal.vStr _, _ => none

/-- The two float cases of IncrementFloat; nil otherwise. -/
def addFloatVal : GoVal → Rat → Option GoVal
  | GoVal.vFloat32 a, n => some (GoVal.vFloat32 (a + n))
  | GoVal.vFloat64 a, n => some (GoVal.vFloat64 (a + n))
  | _, _ => none

/-- Generic Increment: not-found error when missing or Expired, type error
when the payload is not numeric, else stores the summed payload in place,
keeping the Expiration field, and returns a nil error and no value. -/
def Increment (c : cache) (key : String) (n : Int) (now : Int) :
    Option GoErr × cache :=
  match lookupKey c.items key with
  | none => (some (GoErr.notFound key), c)
  | some item =>
    if item.Expired now then (some (GoErr.notFound key), c)
    else
      match addToVal item.Object n with
      | none => (some (GoErr.notAnInteger key), c)
      | some newObj =>
        (none, { c with items := setItem c.items key { item with Object := newObj } })

/-- IncrementFloat: like Increment but only for the two float widths, with
its own type-error message, also returning no value. -/
def IncrementFloat (c : cache) (key : String) (n : Rat) (now : Int) :
    Option GoErr × cache :=
  match lookupKey c.items key with
  | none => (some (GoErr.notFound key), c)
  | some item =>
    if item.Expired now then (some (GoErr.notFound key), c)
    else
      match addFloatVal item.Object n with
      | none => (some (GoErr.notFloat key), c)
      | some newObj =>
        (none, { c with items := setItem c.items key { item with Object := newObj } })

/-- Type assertion .(int). -/
def GoVal.asInt : GoVal → Option Int
  | GoVal.vInt a => some a
  | _ => none

/-- Type assertion .(int8). -/
def GoVal.asInt8 : GoVal → Option Int
  | GoVal.vInt8 a => some a
  | _ => none

/-- Type assertion .(int16). -/
def GoVal.asInt16 : GoVal → Option Int
  | GoVal.vInt16 a => some a
  | _ => none

/-- Type assertion .(int32). -/
def GoVal.asInt32 : GoVal → Option Int
  | GoVal.vInt32 a => some a
  | _ => none

/-- Type assertion .(int64). -/
def GoVal.asInt64 : GoVal → Option Int
  | GoVal.vInt64 a => some a
  | _ => none

/-- Type assertion .(uint). -/
def GoVal.asUint : GoVal → Option Int
  | GoVal.vUint a => some a
  | _ => none

/-- Type assertion .(uintptr). -/
def GoVal.asUintptr : GoVal → Option Int
  | GoVal.vUintptr a => some a
  | _ => none

/-- Type assertion .(uint8). -/
def GoVal.asUint8 : GoVal → Option Int
  | GoVal.vUint8 a => some a
  | _ => none

/-- Type assertion .(uint16). -/
def GoVal.asUint16 : GoVal → Option Int
  | GoVal.vUint16 a => some a
  | _ => none

/-- Type assertion .(uint32). -/
def GoVal.asUint32 : GoVal → Option Int
  | GoVal.vUint32 a => some a
  | _ => none

/-- Type assertion .(uint64). -/
def GoVal.asUint64 : GoVal → Option Int
  | GoVal.vUint64 a => some a
  | _ => none

/-- Type assertion .(float32). -/
def GoVal.asFloat32 : GoVal → Option Rat
  | GoVal.vFloat32 a => some a
  | _ => none

/-- Type assertion .(float64). -/
def GoVal.asFloat64 : GoVal → Option Rat
  | GoVal.vFloat64 a => some a
  | _ => none

/-- The shape shared verbatim by the twelve width-specific increments:
not-found error when missing or Expired; the given type-mismatch error
when the type assertion fails; otherwise store the sum with the
Expiration field untouched and return the new value. -/
def incrementWith {α : Type} (proj : GoVal → Option α) (inj : α → GoVal)
    (add : α → α → α) (mismatch : String → GoErr)
    (c : cache) (key : String) (n : α) (now : Int) : Except GoErr α × cache :=
  match lookupKey c.items key with
  | none => (Except.error (GoErr.notFound key), c)
  | some item =>
    if item.Expired now then (Except.error (GoErr.notFound key), c)
    else
      match proj item.Object with
      | none => (Except.error (mismatch key), c)
      | some value =>
        let newValue := add value n
        (Except.ok newValue,
          { c with items := setItem c.items key { item with Object := inj newValue } })

/-- IncrementInt (Go int is 64-bit here). -/
def IncrementInt (c : cache) (key : String) (n : Int) (now : Int) :
    Except GoErr Int × cache :=
  incrementWith GoVal.asInt GoVal.vInt (intAdd 64) (GoErr.notOfType ("int"))
    c key n now

/-- IncrementInt8. -/
def IncrementInt8 (c : cache) (key : String) (n : Int) (now : Int) :
    Except GoErr Int × cache :=
  incrementWith GoVal.asInt8 GoVal.vInt8 (intAdd 8) (GoErr.notOfType ("int8"))
    c key n now

/-- IncrementInt16. -/
def IncrementInt16 (c : cache) (key : String) (n : Int) (now : Int) :
    Except GoErr Int × cache :=
  incrementWith GoVal.asInt16 GoVal.vInt16 (intAdd 16)
    (GoErr.notOfType ("int16")) c key n now

/-- IncrementInt32. -/
def IncrementInt32 (c : cache) (key : String) (n : Int) (now : Int) :
    Except GoErr Int × cache :=
  incrementWith GoVal.asInt32 GoVal.vInt32 (intAdd 32)
    (GoErr.notOfType ("int32")) c key n now

/-- IncrementInt64. -/
def IncrementInt64 (c : cache) (key : String) (n : Int) (now : Int) :
    Except GoErr Int × cache :=
  incrementWith GoVal.asInt64 GoVal.vInt64 (intAdd 64)
    (GoErr.notOfType ("int64")) c key n now

/-- IncrementUint (Go uint is 64-bit here). -/
def IncrementUint (c : cache) (key : String) (n : Int) (now : Int) :
    Except GoErr Int × cache :=
  incrementWith GoVal.asUint GoVal.vUint (uintAdd 64)
    (GoErr.notOfType ("uint")) c key n now

/-- IncrementUintptr (64-bit). -/
def IncrementUintptr (c : cache) (key : String) (n : Int) (now : Int) :
    Except GoErr Int × cache :=
  incrementWith GoVal.asUintptr GoVal.vUintptr (uintAdd 64)
    (GoErr.notOfType ("uintptr")) c key n now

/-- IncrementUint8. -/
def IncrementUint8 (c : cache) (key : String) (n : Int) (now : Int) :
    Except GoErr Int × cache :=
  incrementWith GoVal.asUint8 GoVal.vUint8 (uintAdd 8)
    (GoErr.notOfType ("uint8")) c key n now

/-- IncrementUint16. -/
def IncrementUint16 (c : cache) (key : String) (n : Int) (now : Int) :
    Except GoErr Int × cache :=
  incrementWith GoVal.asUint16 GoVal.vUint16 (uintAdd 16)
    (GoErr.notOfType ("uint16")) c key n now

/-- IncrementUint32. -/
def IncrementUint32 (c : cache) (key : String) (n : Int) (now : Int) :
    Except GoErr Int × cache :=
  incrementWith GoVal.asUint32 GoVal.vUint32 (uintAdd 32)
    (GoErr.notOfType ("uint32")) c key n now

/-- IncrementUint64. -/
def IncrementUint64 (c : cache) (key : String) (n : Int) (now : Int) :
    Except GoErr Int × cache :=
  incrementWith GoVal.asUint64 GoVal.vUint64 (uintAdd 64)
    (GoErr.notOfType ("uint64")) c key n now

/-- IncrementFloat32. -/
def IncrementFloat32 (c : cache) (key : String) (n : Rat) (now : Int) :
    Except GoErr Rat × cache :=
  incrementWith GoVal.asFloat32 GoVal.vFloat32 ratAdd
    (GoErr.notOfType ("float32")) c key n now

/-- IncrementFloat64. -/
def IncrementFloat64 (c : cache) (key : String) (n : Rat) (now : Int) :
    Except GoErr Rat × cache :=
  incrementWith GoVal.asFloat64 GoVal.vFloat64 ratAdd
    (GoErr.notOfType ("float64")) c key n now

/-- Success contract shared by the width-specific increments: on a present,
unexpired entry whose payload passes the type assertion, return the sum and
store it back with the Expiration field untouched. -/
abbrev IncOkSpec {α : Type} (op : cache → String → α → Int → Except GoErr α × cache)
    (proj : GoVal → Option α) (inj : α → GoVal) (add : α → α → α) : Prop :=
  ∀ (c : cache) (key : String) (n : α) (now : Int) (it : Item) (a : α),
    lookupKey c.items key = some it → it.Expired now = false →
    proj it.Object = some a →
    op c key n now = (Except.ok (add a n),
      { c with items := setItem c.items key ⟨inj (add a n), it.Expiration⟩ })

/-- Failure contract shared by the width-specific increments: not-found
error on a missing or Expired key, the given type-mismatch error on a
payload failing the type assertion, the cache unchanged in each case. -/
abbrev IncFailSpec {α : Type} (op : cache → String → α → Int → Except GoErr α × cache)
    (proj : GoVal → Option α) (mismatch : String → GoErr) : Prop :=
  ∀ (c : cache) (key : String) (n : α) (now : Int),
    (lookupKey c.items key = none →
      op c key n now = (Except.error (GoErr.notFound key), c)) ∧
    (∀ it : Item, lookupKey c.items key = some it → it.Expired now = true →
      op c key n now = (Except.error (GoErr.notFound key), c)) ∧
    (∀ it : Item, lookupKey c.items key = some it → it.Expired now = false →
      proj it.Object = none →
      op c key n now = (Except.error (mismatch key), c))

/-- The empty cache New builds with the NoExpiration default. -/
def emptyCache : cache :=
  newCache NoExpiration []

/-- A cache whose single entry has a negative Expiration field, as a caller
can seed through NewForm. -/
def cNeg : cache :=
  { defaultExpiration := -1
    items := [(("k"), ⟨GoVal.vInt 7, -1⟩)]
    onEvicted := false }

/-- A cache holding the Go int 1 under key k, never expiring. -/
def cIntA : cache :=
  { defaultExpiration := -1
    items := [(("k"), ⟨GoVal.vInt 1, 0⟩)]
    onEvicted := false }

/-- Like cIntA but holding the Go int 100. -/
def cIntB : cache :=
  { defaultExpiration := -1
    items := [(("k"), ⟨GoVal.vInt 100, 0⟩)]
    onEvicted := false }

/-- A cache holding a string payload under key k. -/
def cStr : cache :=
  { defaultExpiration := -1
    items := [(("k"), ⟨GoVal.vStr ("x"), 0⟩)]
    onEvicted := false }

/-- Two entries: A expires at instant 1, B never expires. -/
def cAB : cache :=
  { defaultExpiration := -1
    items := [(("A"), ⟨GoVal.vStr ("a"), 1⟩), (("B"), ⟨GoVal.vStr ("b"), 0⟩)]
    onEvicted := false }

/-- One live entry (expires at instant 10) with a callback registered. -/
def cLive : cache :=
  { defaultExpiration := -1
    items := [(("k"), ⟨GoVal.vStr ("x"), 10⟩)]
    onEvicted := true }

theorem lookupKey_eraseKey (items : List (String × Item)) (key k' : String) :
    lookupKey (eraseKey items key) k' =
      if k' = key then none else lookupKey items k' := by
  induction items with
  | nil => simp [eraseKey, lookupKey]
  | cons p rest ih =>
    obtain ⟨k0, it0⟩ := p
    simp only [eraseKey, lookupKey]
    by_cases h0 : k0 = key
    · rw [if_pos h0, ih]
      by_cases hk : k' = key
      · simp [hk]
      · have hne : ¬ k0 = k' := fun h => hk (h ▸ h0)
        rw [if_neg hk, if_neg hk, if_neg hne]
    · rw [if_neg h0]
      show lookupKey ((k0, it0) :: eraseKey rest key) k' = _
      simp only [lookupKey]
      by_cases hk0 : k0 = k'
      · have hne : ¬ k' = key := fun h => h0 (hk0.trans h)
        rw [if_pos hk0, if_pos hk0, if_neg hne]
      · rw [if_neg hk0, if_neg hk0, ih]

theorem lookupKey_setItem (items : List (String × Item)) (key : String)
    (it : Item) (k' : String) :
    lookupKey (setItem items key it) k' =
      if k' = key then some it else lookupKey items k' := by
  by_cases h : k' = key
  · subst h; simp [setItem, lookupKey]
  · have h2 : ¬ key = k' := fun hh => h hh.symm
    simp [setItem, lookupKey, h2, h, lookupKey_eraseKey]

theorem keysNodup_cons {k0 : String} {it0 : Item}
    {rest : List (String × Item)} (h : KeysNodup ((k0, it0) :: rest)) :
    (∀ it', (k0, it') ∉ rest) ∧ KeysNodup rest := by
  rw [KeysNodup, List.map_cons, List.nodup_cons] at h
  refine ⟨fun it' hmem => h.1 ?_, h.2⟩
  exact List.mem_map.mpr ⟨(k0, it'), hmem, rfl⟩

theorem mem_iff_lookupKey {items : List (String × Item)}
    (h : KeysNodup items) (k : String) (it : Item) :
    (k, it) ∈ items ↔ lookupKey items k = some it := by
  induction items with
  | nil => simp [lookupKey]
  | cons p rest ih =>
    obtain ⟨k0, it0⟩ := p
    obtain ⟨hnot, hrest⟩ := keysNodup_cons h
    simp only [lookupKey, List.mem_cons]
    by_cases hk : k0 = k
    · subst hk
      rw [if_pos rfl]
      constructor
      · rintro (heq | hmem)
        · rw [Prod.mk.injEq] at heq
          rw [heq.2]
        · exact absurd hmem (hnot it)
      · intro hsome
        have h2 : it0 = it := Option.some.inj hsome
        exact Or.inl (by rw [← h2])
    · rw [if_neg hk, ← ih hrest]
      constructor
      · rintro (heq | hl)
        · rw [Prod.mk.injEq] at heq
          exact absurd heq.1.symm hk
        · exact hl
      · exact fun hl => Or.inr hl

theorem lookupKey_mem {items : List (String × Item)} {k : String} {it : Item}
    (h : lookupKey items k = some it) : (k, it) ∈ items := by
  induction items with
  | nil => cases h
  | cons p rest ih =>
    obtain ⟨k0, it0⟩ := p
    simp only [lookupKey] at h
    by_cases hk : k0 = k
    · rw [if_pos hk] at h
      subst hk
      have h2 : it0 = it := Option.some.inj h
      rw [← h2]
      exact List.mem_cons_self _ _
    · rw [if_neg hk] at h
      exact List.mem_cons_of_mem _ (ih h)

theorem expired_iff (it : Item) (now : Int) :
    it.Expired now = true ↔ it.Expiration ≠ 0 ∧ it.Expiration < now := by
  by_cases h : it.Expiration = 0 <;> simp [Item.Expired, h]

theorem expiredForRead_iff (it : Item) (now : Int) :
    expiredForRead it now = true ↔
      0 < it.Expiration ∧ it.Expiration < now := by
  simp [expiredForRead]

theorem Expired_eq_expiredForRead {it : Item} (h : 0 ≤ it.Expiration)
    (now : Int) : it.Expired now = expiredForRead it now := by
  by_cases h0 : it.Expiration = 0
  · simp [Item.Expired, expiredForRead, h0]
  · have hpos : 0 < it.Expiration := lt_of_le_of_ne h (Ne.symm h0)
    simp [Item.Expired, expiredForRead, h0, hpos]

theorem Get_eq (c : cache) (key : String) (now : Int) :
    Get c key now = match lookupKey c.items key with
      | none => none
      | some it => if expiredForRead it now then none else some it.Object := by
  unfold Get
  cases lookupKey c.items key with
  | none => rfl
  | some it =>
    by_cases h1 : 0 < it.Expiration <;>
      by_cases h2 : it.Expiration < now <;>
        simp [expiredForRead, h1, h2]

theorem get_eq_Get : @get = @Get := rfl

theorem set_eq_Set : @set = @Set := rfl

theorem incrementWith_ok {α : Type} (proj : GoVal → Option α)
    (inj : α → GoVal) (add : α → α → α) (mismatch : String → GoErr) :
    IncOkSpec (incrementWith proj inj add mismatch) proj inj add := by
  intro c key n now it a hl he hp
  cases it
  simp [incrementWith, hl, he, hp]

theorem incrementWith_fail {α : Type} (proj : GoVal → Option α)
    (inj : α → GoVal) (add : α → α → α) (mismatch : String → GoErr) :
    IncFailSpec (incrementWith proj inj add mismatch) proj mismatch := by
  intro c key n now
  refine ⟨fun hl => ?_, fun it hl he => ?_, fun it hl he hp => ?_⟩ <;>
    simp [incrementWith, hl, *]

/-- C1, as frozen, is refuted by the code: an entry whose Expiration field
is negative (reachable by seeding items through NewForm) satisfies Expired,
since its expiration is set and any nonnegative instant is strictly past
it, yet Get still returns it with found true, because Get only treats a
POSITIVE expiration as expirable. The statement below negates the claim as
stated, instantiated at a one-entry cache with Expiration -1 at instant 0. -/
theorem claim_C1_counterexample :
    ¬ (∀ (c : cache) (key : String) (now : Int),
        (∃ v, Get c key now = some v) ↔
          (∃ it, lookupKey c.items key = some it ∧ it.Expired now = false)) := by
  intro h
  have h2 := (h cNeg ("k") 0).mp ⟨GoVal.vInt 7, by decide⟩
  obtain ⟨it, hit, hexp⟩ := h2
  have hl : lookupKey cNeg.items ("k") = some ⟨GoVal.vInt 7, -1⟩ := by decide
  rw [hl] at hit
  have h3 := Option.some.inj hit
  rw [← h3] at hexp
  exact absurd hexp (by decide)

/-- Claim C1 (amended): for every key whose stored entry, if any, has a
NONNEGATIVE expiration field (true of every entry the cache itself writes,
since Set stamps now plus a positive duration or 0), Get returns the stored
value with found true iff the key is present and the entry not expired;
it returns the stored payload in that case; an entry with no expiration
(field 0) is never expired; and an entry is expired iff an expiration is
set (nonzero) and the current instant is strictly past it. -/
theorem claim_C1 (c : cache) (key : String) (now : Int)
    (hInv : ∀ p ∈ c.items, 0 ≤ p.2.Expiration) :
    ((∃ v, Get c key now = some v) ↔
      (∃ it, lookupKey c.items key = some it ∧ it.Expired now = false))
    ∧ (∀ it, lookupKey c.items key = some it → it.Expired now = false →
        Get c key now = some it.Object)
    ∧ (∀ it : Item, it.Expiration = 0 → it.Expired now = false)
    ∧ (∀ it : Item, it.Expired now = true ↔
        (it.Expiration ≠ 0 ∧ it.Expiration < now)) := by
  refine ⟨?_, ?_, fun it h0 => by simp [Item.Expired, h0],
    fun it => expired_iff it now⟩
  · rw [Get_eq]
    cases hl : lookupKey c.items key with
    | none => simp
    | some it =>
      have hE := Expired_eq_expiredForRead
        (hInv _ (lookupKey_mem hl)) now
      simp only [Option.some.injEq]
      constructor
      · rintro ⟨v, hv⟩
        refine ⟨it, rfl, ?_⟩
        rw [hE]
        cases hb : expiredForRead it now
        · rfl
        · rw [hb] at hv
          simp at hv
      · rintro ⟨it', rfl, hexp⟩
        rw [hE] at hexp
        exact ⟨it.Object, by simp [hexp]⟩
  · intro it hl hexp
    rw [Get_eq, hl]
    have hE := Expired_eq_expiredForRead (hInv _ (lookupKey_mem hl)) now
    show (if expiredForRead it now then none else some it.Object) =
      some it.Object
    rw [← hE]
    simp [hexp]

/-- Witness for claim C1 at a concrete live entry. -/
theorem claim_C1_witness :
    (∃ v, Get cLive ("k") 3 = some v) ↔
      (∃ it, lookupKey cLive.items ("k") = some it ∧ it.Expired 3 = false) :=
  (claim_C1 cLive ("k") 3 (by decide)).1

/-- C2, as frozen, is refuted at the boundary instant: it demands that get
fail at every instant with now at least insertion time plus d, but at now
equal to insertion time plus d exactly, the expiration is not yet strictly
past, so Get still succeeds. Concretely, setting key k at instant 0 with
TTL 5 and reading at instant 5 returns the value. -/
theorem claim_C2_counterexample :
    ¬ (∀ now : Int, (0:Int) + 5 ≤ now →
        Get (Set emptyCache ("k") (GoVal.vInt 1) 5 0) ("k") now = none) := by
  intro h
  exact absurd (h 5 (by decide)) (by decide)

/-- Claim C2 (amended): for every key set with an explicit TTL d greater
than 0 at a nonnegative instant t, Get succeeds with the stored value at
every instant up to and INCLUDING t plus d, and fails with not-found at
every instant STRICTLY after t plus d, permanently, with no delete or
purge needed. -/
theorem claim_C2 (c : cache) (key : String) (v : GoVal) (d t now : Int)
    (hd : 0 < d) (ht : 0 ≤ t) :
    Get (Set c key v d t) key now =
      if now ≤ t + d then some v else none := by
  have hdne : ¬ d = DefaultExpiration := by
    rw [DefaultExpiration]
    omega
  have hl : lookupKey (Set c key v d t).items key = some ⟨v, t + d⟩ := by
    simp only [Set]
    rw [if_neg hdne, if_pos hd, lookupKey_setItem, if_pos rfl]
  unfold Get
  rw [hl]
  show (if 0 < t + d then if t + d < now then none else some v else some v) =
    if now ≤ t + d then some v else none
  rw [if_pos (by omega : (0:Int) < t + d)]
  by_cases h2 : t + d < now
  · rw [if_pos h2, if_neg (by omega : ¬ now ≤ t + d)]
  · rw [if_neg h2, if_pos (by omega : now ≤ t + d)]

/-- Witness for claim C2: read back before expiry. -/
theorem claim_C2_witness :
    Get (Set emptyCache ("k") (GoVal.vInt 1) 5 0) ("k") 3 =
      some (GoVal.vInt 1) :=
  (claim_C2 emptyCache ("k") (GoVal.vInt 1) 5 0 3 (by decide)
    (by decide)).trans (by decide)

/-- Claim C3: Set inserts or overwrites unconditionally; the sentinel
duration 0 resolves to the default TTL; the stored expiration is now plus
the resolved duration exactly when that is positive and 0 otherwise; an
entry with expiration 0 is never expired; and keys other than the one
written are untouched. -/
theorem claim_C3 (c : cache) (key : String) (v : GoVal) (d now : Int) :
    lookupKey (Set c key v d now).items key =
      some ⟨v, if 0 < (if d = DefaultExpiration then c.defaultExpiration else d)
        then now + (if d = DefaultExpiration then c.defaultExpiration else d)
        else 0⟩
    ∧ (∀ k', k' ≠ key →
        lookupKey (Set c key v d now).items k' = lookupKey c.items k')
    ∧ (∀ t : Int, Item.Expired ⟨v, 0⟩ t = false) := by
  refine ⟨?_, fun k' hk => ?_, fun t => by simp [Item.Expired]⟩
  · simp only [Set]
    rw [lookupKey_setItem, if_pos rfl]
  · simp only [Set]
    rw [lookupKey_setItem, if_neg hk]

/-- Witness for claim C3: a key other than the written one is unchanged. -/
theorem claim_C3_witness :
    lookupKey (Set emptyCache ("k") (GoVal.vInt 1) 0 9).items ("a") = none :=
  ((claim_C3 emptyCache ("k") (GoVal.vInt 1) 0 9).2.1 ("a")
    (by decide)).trans (by decide)

/-- C4, as frozen, is refuted by the same negative-expiration corner as C1:
Add decides liveness with the unexported get, which treats a negative
expiration as never expiring, while the expiry notion of the claim (the
Expired predicate) reports such an entry expired. On a cache seeded with
an Expiration of -1, Add at instant 0 fails with AlreadyExists even though
the entry is expired, where the claim demands success. -/
theorem claim_C4_counterexample :
    ¬ (∀ (c : cache) (key : String) (v : GoVal) (d now : Int) (it : Item),
        lookupKey c.items key = some it → it.Expired now = true →
        (Add c key v d now).1 = none) := by
  intro h
  exact absurd
    (h cNeg ("k") (GoVal.vInt 9) 5 0 ⟨GoVal.vInt 7, -1⟩ (by decide) (by decide))
    (by decide)

/-- Claim C4 (amended): on a cache whose stored expirations are all
nonnegative (true of every entry the cache itself writes), Add fails with
AlreadyExists and leaves the cache unchanged when an unexpired entry for
the key is present, and when the key is absent or the entry is expired it
succeeds, storing the new value with the resolved TTL over the old one. -/
theorem claim_C4 (c : cache) (key : String) (v : GoVal) (d now : Int)
    (hInv : ∀ p ∈ c.items, 0 ≤ p.2.Expiration) :
    ((∃ it, lookupKey c.items key = some it ∧ it.Expired now = false) →
      Add c key v d now = (some (GoErr.alreadyExists key), c))
    ∧ ((lookupKey c.items key = none ∨
        (∃ it, lookupKey c.items key = some it ∧ it.Expired now = true)) →
      Add c key v d now = (none, set c key v d now)
      ∧ lookupKey (Add c key v d now).2.items key =
          some ⟨v, if 0 < (if d = DefaultExpiration then c.defaultExpiration
              else d)
            then now + (if d = DefaultExpiration then c.defaultExpiration
              else d)
            else 0⟩) := by
  constructor
  · rintro ⟨it, hl, hexp⟩
    have hger : get c key now = some it.Object := by
      show Get c key now = some it.Object
      rw [Get_eq, hl]
      have hE := Expired_eq_expiredForRead (hInv _ (lookupKey_mem hl)) now
      show (if expiredForRead it now then none else some it.Object) =
        some it.Object
      rw [← hE]
      simp [hexp]
    unfold Add
    rw [hger]
  · intro hmiss
    have hger : get c key now = none := by
      show Get c key now = none
      rw [Get_eq]
      rcases hmiss with hnone | ⟨it, hl, hexp⟩
      · rw [hnone]
      · rw [hl]
        have hE := Expired_eq_expiredForRead (hInv _ (lookupKey_mem hl)) now
        show (if expiredForRead it now then none else some it.Object) = none
        rw [← hE]
        simp [hexp]
    constructor
    · unfold Add
      rw [hger]
    · unfold Add
      rw [hger]
      show lookupKey (set c key v d now).items key = _
      simp only [set]
      rw [lookupKey_setItem, if_pos rfl]

/-- Witness for claim C4: Add on a live key fails with AlreadyExists. -/
theorem claim_C4_witness :
    Add cLive ("k") (GoVal.vInt 3) 5 3 =
      (some (GoErr.alreadyExists ("k")), cLive) :=
  (claim_C4 cLive ("k") (GoVal.vInt 3) 5 3 (by decide)).1
    ⟨⟨GoVal.vStr ("x"), 10⟩, by decide, by decide⟩

theorem deleteExpired_events (c : cache) (now : Int)
    (hreg : c.onEvicted = true) :
    (DeleteExpired c now).2 =
      (c.items.filter (fun p => expiredForRead p.2 now)).map
        (fun p => (p.1, p.2.Object)) := by
  simp [DeleteExpired, hreg]

/-- Claim C5: with a callback registered, Delete on a present key yields
exactly one invocation, with that key and its stored payload; Delete on a
miss yields none; Flush yields none; and the invocations of DeleteExpired
are exactly one per removed (expired) entry, with no key invoked twice. -/
theorem claim_C5 :
    (∀ (c : cache) (key : String) (it : Item), c.onEvicted = true →
        lookupKey c.items key = some it →
        Delete c key = ({ c with items := eraseKey c.items key },
          [(key, it.Object)]))
    ∧ (∀ (c : cache) (key : String), lookupKey c.items key = none →
        (Delete c key).2 = [])
    ∧ (∀ c : cache, (Flush c).2 = [])
    ∧ (∀ (c : cache) (now : Int), c.onEvicted = true → KeysNodup c.items →
        (((DeleteExpired c now).2.map Prod.fst).Nodup
         ∧ ∀ (k : String) (v : GoVal),
             (k, v) ∈ (DeleteExpired c now).2 ↔
               (∃ it, lookupKey c.items k = some it ∧
                 expiredForRead it now = true ∧ v = it.Object))) := by
  refine ⟨?_, ?_, fun c => rfl, ?_⟩
  · intro c key it hreg hl
    simp [Delete, delete, hreg, hl]
  · intro c key hl
    cases hreg : c.onEvicted <;> simp [Delete, delete, hreg, hl]
  · intro c now hreg hnd
    rw [deleteExpired_events c now hreg]
    constructor
    · rw [List.map_map]
      have hcomp : Prod.fst ∘ (fun p : String × Item => (p.1, p.2.Object)) =
        Prod.fst := rfl
      rw [hcomp]
      exact List.Nodup.sublist
        ((List.filter_sublist _).map Prod.fst) hnd
    · intro k v
      rw [List.mem_map]
      constructor
      · rintro ⟨p, hp, heq⟩
        rw [List.mem_filter] at hp
        obtain ⟨hpmem, hpf⟩ := hp
        have h1 : p.1 = k := congrArg Prod.fst heq
        have h2 : p.2.Object = v := congrArg Prod.snd heq
        refine ⟨p.2, ?_, hpf, h2.symm⟩
        rw [← h1]
        exact (mem_iff_lookupKey hnd p.1 p.2).mp hpmem
      · rintro ⟨it, hl, hexp, hv⟩
        refine ⟨(k, it), ?_, ?_⟩
        · rw [List.mem_filter]
          exact ⟨(mem_iff_lookupKey hnd k it).mpr hl, hexp⟩
        · rw [hv]

/-- Witness for claim C5: deleting the live entry of cLive fires the
callback once with its key and payload. -/
theorem claim_C5_witness :
    Delete cLive ("k") =
      ({ cLive with items := eraseKey cLive.items ("k") },
        [(("k"), GoVal.vStr ("x"))]) :=
  claim_C5.1 cLive ("k") ⟨GoVal.vStr ("x"), 10⟩ (by decide) (by decide)

/-- C6, as frozen, is refuted for the generic increment family: the Go
Increment (and IncrementFloat) return only an error value, never the new
value. Formally, no function can recover the new value from what Increment
returns to the caller: two caches storing 1 and 100 under the same key
give identical caller-visible results although the incremented values
differ (3 versus 102). -/
theorem claim_C6_counterexample :
    ¬ ∃ recover : Option GoErr → Int,
        recover (Increment cIntA ("k") 2 0).1 = 3 ∧
        recover (Increment cIntB ("k") 2 0).1 = 102 := by
  rintro ⟨f, h3, h102⟩
  have he : (Increment cIntA ("k") 2 0).1 = (Increment cIntB ("k") 2 0).1 := by
    decide
  rw [he] at h3
  have h312 : (3 : Int) = 102 := h3.symm.trans h102
  exact absurd h312 (by decide)

/-- Claim C6 (amended): every successful width-specific increment on a
present, unexpired, type-compatible entry returns the newly incremented
value and stores it with the Expiration field unchanged; the generic
Increment and IncrementFloat also store the incremented value with the
Expiration unchanged, but return only a nil error and no value. -/
theorem claim_C6 :
    IncOkSpec IncrementInt GoVal.asInt GoVal.vInt (intAdd 64)
    ∧ IncOkSpec IncrementInt8 GoVal.asInt8 GoVal.vInt8 (intAdd 8)
    ∧ IncOkSpec IncrementInt16 GoVal.asInt16 GoVal.vInt16 (intAdd 16)
    ∧ IncOkSpec IncrementInt32 GoVal.asInt32 GoVal.vInt32 (intAdd 32)
    ∧ IncOkSpec IncrementInt64 GoVal.asInt64 GoVal.vInt64 (intAdd 64)
    ∧ IncOkSpec IncrementUint GoVal.asUint GoVal.vUint (uintAdd 64)
    ∧ IncOkSpec IncrementUintptr GoVal.asUintptr GoVal.vUintptr (uintAdd 64)
    ∧ IncOkSpec IncrementUint8 GoVal.asUint8 GoVal.vUint8 (uintAdd 8)
    ∧ IncOkSpec IncrementUint16 GoVal.asUint16 GoVal.vUint16 (uintAdd 16)
    ∧ IncOkSpec IncrementUint32 GoVal.asUint32 GoVal.vUint32 (uintAdd 32)
    ∧ IncOkSpec IncrementUint64 GoVal.asUint64 GoVal.vUint64 (uintAdd 64)
    ∧ IncOkSpec IncrementFloat32 GoVal.asFloat32 GoVal.vFloat32 ratAdd
    ∧ IncOkSpec IncrementFloat64 GoVal.asFloat64 GoVal.vFloat64 ratAdd
    ∧ (∀ (c : cache) (key : String) (n now : Int) (it : Item) (v : GoVal),
        lookupKey c.items key = some it → it.Expired now = false →
        addToVal it.Object n = some v →
        Increment c key n now =
          (none, { c with items := setItem c.items key ⟨v, it.Expiration⟩ }))
    ∧ (∀ (c : cache) (key : String) (n : Rat) (now : Int) (it : Item)
        (v : GoVal),
        lookupKey c.items key = some it → it.Expired now = false →
        addFloatVal it.Object n = some v →
        IncrementFloat c key n now =
          (none, { c with items := setItem c.items key ⟨v, it.Expiration⟩ })) := by
  refine ⟨incrementWith_ok _ _ _ _, incrementWith_ok _ _ _ _,
    incrementWith_ok _ _ _ _, incrementWith_ok _ _ _ _,
    incrementWith_ok _ _ _ _, incrementWith_ok _ _ _ _,
    incrementWith_ok _ _ _ _, incrementWith_ok _ _ _ _,
    incrementWith_ok _ _ _ _, incrementWith_ok _ _ _ _,
    incrementWith_ok _ _ _ _, incrementWith_ok _ _ _ _,
    incrementWith_ok _ _ _ _, ?_, ?_⟩
  · intro c key n now it v hl he hv
    obtain ⟨obj, exp⟩ := it
    simp [Increment, hl, he, hv]
  · intro c key n now it v hl he hv
    obtain ⟨obj, exp⟩ := it
    simp [IncrementFloat, hl, he, hv]

/-- Witness for claim C6: incrementing the int 1 by 2 returns 3 and keeps
the zero expiration. -/
theorem claim_C6_witness :
    IncrementInt cIntA ("k") 2 0 =
      (Except.ok 3,
        { cIntA with items := setItem cIntA.items ("k") ⟨GoVal.vInt 3, 0⟩ }) := by
  have h := claim_C6.1 cIntA ("k") 2 0 ⟨GoVal.vInt 1, 0⟩ 1 (by decide)
    (by decide) (by decide)
  have h3 : intAdd 64 1 2 = (3 : Int) := by decide
  rw [h3] at h
  exact h

/-- Claim C7: every increment operation fails with the not-found error
when the key is missing or its entry is Expired, and with its
type-mismatch error when the stored payload fails the type check of the
requested family or width; in every failure case the cache is returned
unchanged. -/
theorem claim_C7 :
    IncFailSpec IncrementInt GoVal.asInt (GoErr.notOfType ("int"))
    ∧ IncFailSpec IncrementInt8 GoVal.asInt8 (GoErr.notOfType ("int8"))
    ∧ IncFailSpec IncrementInt16 GoVal.asInt16 (GoErr.notOfType ("int16"))
    ∧ IncFailSpec IncrementInt32 GoVal.asInt32 (GoErr.notOfType ("int32"))
    ∧ IncFailSpec IncrementInt64 GoVal.asInt64 (GoErr.notOfType ("int64"))
    ∧ IncFailSpec IncrementUint GoVal.asUint (GoErr.notOfType ("uint"))
    ∧ IncFailSpec IncrementUintptr GoVal.asUintptr
        (GoErr.notOfType ("uintptr"))
    ∧ IncFailSpec IncrementUint8 GoVal.asUint8 (GoErr.notOfType ("uint8"))
    ∧ IncFailSpec IncrementUint16 GoVal.asUint16 (GoErr.notOfType ("uint16"))
    ∧ IncFailSpec IncrementUint32 GoVal.asUint32 (GoErr.notOfType ("uint32"))
    ∧ IncFailSpec IncrementUint64 GoVal.asUint64 (GoErr.notOfType ("uint64"))
    ∧ IncFailSpec IncrementFloat32 GoVal.asFloat32
        (GoErr.notOfType ("float32"))
    ∧ IncFailSpec IncrementFloat64 GoVal.asFloat64
        (GoErr.notOfType ("float64"))
    ∧ (∀ (c : cache) (key : String) (n now : Int),
        (lookupKey c.items key = none →
          Increment c key n now = (some (GoErr.notFound key), c)) ∧
        (∀ it, lookupKey c.items key = some it → it.Expired now = true →
          Increment c key n now = (some (GoErr.notFound key), c)) ∧
        (∀ it, lookupKey c.items key = some it → it.Expired now = false →
          addToVal it.Object n = none →
          Increment c key n now = (some (GoErr.notAnInteger key), c)))
    ∧ (∀ (c : cache) (key : String) (n : Rat) (now : Int),
        (lookupKey c.items key = none →
          IncrementFloat c key n now = (some (GoErr.notFound key), c)) ∧
        (∀ it, lookupKey c.items key = some it → it.Expired now = true →
          IncrementFloat c key n now = (some (GoErr.notFound key), c)) ∧
        (∀ it, lookupKey c.items key = some it → it.Expired now = false →
          addFloatVal it.Object n = none →
          IncrementFloat c key n now = (some (GoErr.notFloat key), c))) := by
  refine ⟨incrementWith_fail _ _ _ _, incrementWith_fail _ _ _ _,
    incrementWith_fail _ _ _ _, incrementWith_fail _ _ _ _,
    incrementWith_fail _ _ _ _, incrementWith_fail _ _ _ _,
    incrementWith_fail _ _ _ _, incrementWith_fail _ _ _ _,
    incrementWith_fail _ _ _ _, incrementWith_fail _ _ _ _,
    incrementWith_fail _ _ _ _, incrementWith_fail _ _ _ _,
    incrementWith_fail _ _ _ _, ?_, ?_⟩
  · intro c key n now
    refine ⟨fun hl => ?_, fun it hl he => ?_, fun it hl he hp => ?_⟩ <;>
      simp [Increment, hl, *]
  · intro c key n now
    refine ⟨fun hl => ?_, fun it hl he => ?_, fun it hl he hp => ?_⟩ <;>
      simp [IncrementFloat, hl, *]

/-- Witness for claim C7: incrementing a text payload fails with the
type-mismatch errors (width-specific and generic) and leaves the cache
unchanged. -/
theorem claim_C7_witness :
    IncrementInt cStr ("k") 2 0 =
      (Except.error (GoErr.notOfType ("int") ("k")), cStr)
    ∧ Increment cStr ("k") 2 0 = (some (GoErr.notAnInteger ("k")), cStr) := by
  obtain ⟨h1, h2, h3, h4, h5, h6, h7, h8, h9, h10, h11, h12, h13, h14, h15⟩ :=
    claim_C7
  exact ⟨(h1 cStr ("k") 2 0).2.2 ⟨GoVal.vStr ("x"), 0⟩ (by decide) (by decide)
      (by decide),
    (h14 cStr ("k") 2 0).2.2 ⟨GoVal.vStr ("x"), 0⟩ (by decide) (by decide)
      (by decide)⟩

theorem lookupKey_Items (c : cache) (now : Int) (hnd : KeysNodup c.items)
    (k : String) (it : Item) :
    lookupKey (Items c now) k = some it ↔
      (lookupKey c.items k = some it ∧ expiredForRead it now = false) := by
  have hndF : KeysNodup (Items c now) := by
    unfold Items KeysNodup
    exact List.Nodup.sublist ((List.filter_sublist _).map Prod.fst) hnd
  rw [← mem_iff_lookupKey hndF k it, ← mem_iff_lookupKey hnd k it]
  unfold Items
  rw [List.mem_filter]
  constructor
  · rintro ⟨hm, hf⟩
    refine ⟨hm, ?_⟩
    simpa using hf
  · rintro ⟨hm, hf⟩
    exact ⟨hm, by simp [hf]⟩

/-- Claim C8: the snapshot holds a key with a given item exactly when the
underlying map physically holds it and it passes the read-time expiry test
(the same test Get applies), so Get finds a key iff the snapshot contains
it; the count is the number of physically stored entries regardless of
expiry; and concretely, with entry A expired at instant 2 and entry B
never expiring, the snapshot holds only B while the count is still 2.
Items only reads the cache, so the underlying map is not mutated. -/
theorem claim_C8 :
    (∀ (c : cache) (now : Int), KeysNodup c.items →
      ∀ (k : String) (it : Item),
        (lookupKey (Items c now) k = some it ↔
          (lookupKey c.items k = some it ∧ expiredForRead it now = false)))
    ∧ (∀ (c : cache) (now : Int), KeysNodup c.items → ∀ k : String,
        ((∃ v, Get c k now = some v) ↔
          (∃ it, lookupKey (Items c now) k = some it)))
    ∧ (∀ c : cache, ItemCount c = c.items.length)
    ∧ (Items cAB 2 = [(("B"), ⟨GoVal.vStr ("b"), 0⟩)]
        ∧ ItemCount cAB = 2 ∧ (Items cAB 2).length = 1) := by
  refine ⟨fun c now hnd => lookupKey_Items c now hnd, ?_,
    fun c => rfl, by decide⟩
  intro c now hnd k
  cases hl : lookupKey c.items k with
  | none =>
    constructor
    · rintro ⟨v, hv⟩
      rw [Get_eq, hl] at hv
      simp at hv
    · rintro ⟨it, hit⟩
      rw [lookupKey_Items c now hnd k it, hl] at hit
      simp at hit
  | some it =>
    constructor
    · rintro ⟨v, hv⟩
      rw [Get_eq, hl] at hv
      cases hb : expiredForRead it now
      · exact ⟨it, (lookupKey_Items c now hnd k it).mpr ⟨hl, hb⟩⟩
      · simp [hb] at hv
    · rintro ⟨it2, hit2⟩
      rw [lookupKey_Items c now hnd k it2, hl] at hit2
      obtain ⟨hl2, hexp2⟩ := hit2
      have heq : it = it2 := Option.some.inj hl2
      refine ⟨it.Object, ?_⟩
      rw [Get_eq, hl]
      rw [heq]
      simp [hexp2]

/-- Witness for claim C8: the snapshot of cAB at instant 2 still resolves
key B to its stored entry. -/
theorem claim_C8_witness :
    lookupKey (Items cAB 2) ("B") = some ⟨GoVal.vStr ("b"), 0⟩ :=
  (claim_C8.1 cAB 2 (by unfold KeysNodup; decide) ("B")
    ⟨GoVal.vStr ("b"), 0⟩).mpr ⟨by decide, by decide⟩

/-- Claim C9: constructing a cache with a nonpositive default duration
stores a nonpositive default (zero is normalized to the NoExpiration
sentinel -1, a negative value is kept as is, and either behaves as never
expire); every Set under the DefaultExpiration policy then stores the
entry with expiration field 0, which is never expired; and no Set ever
changes the default. -/
theorem claim_C9 (d : Int) (hd : d ≤ 0) (items0 : List (String × Item))
    (key : String) (v : GoVal) (now t : Int) :
    (newCache d items0).defaultExpiration ≤ 0
    ∧ (d = 0 → (newCache d items0).defaultExpiration = NoExpiration)
    ∧ lookupKey
        (Set (newCache d items0) key v DefaultExpiration now).items key =
        some ⟨v, 0⟩
    ∧ Item.Expired ⟨v, 0⟩ t = false
    ∧ (∀ (key2 : String) (v2 : GoVal) (d2 now2 : Int),
        (Set (newCache d items0) key2 v2 d2 now2).defaultExpiration =
          (newCache d items0).defaultExpiration) := by
  refine ⟨?_, fun h0 => ?_, ?_, by simp [Item.Expired],
    fun key2 v2 d2 now2 => rfl⟩
  · show (if d = 0 then -1 else d) ≤ 0
    split_ifs <;> omega
  · show (if d = 0 then -1 else d) = NoExpiration
    rw [if_pos h0, NoExpiration]
  · show lookupKey (Set (newCache d items0) key v DefaultExpiration now).items
      key = some ⟨v, 0⟩
    simp only [Set, newCache, if_true]
    rw [lookupKey_setItem, if_pos rfl]
    congr 2
    split_ifs <;> omega

/-- Witness for claim C9 at a negative default. -/
theorem claim_C9_witness :
    lookupKey
      (Set (newCache (-7) []) ("k") (GoVal.vInt 5) DefaultExpiration 100).items
      ("k") = some ⟨GoVal.vInt 5, 0⟩ :=
  (claim_C9 (-7) (by decide) [] ("k") (GoVal.vInt 5) 100 0).2.2.1

/-- Claim C10: SetDefault is exactly Set under the DefaultExpiration
policy (and coincides with the definition written from the claim wording):
it overwrites unconditionally with the default TTL, returns nothing so it
can never fail, and touches no other key, regardless of whether a live
entry for the key already exists, despite the add-like doc comment on the
source. -/
theorem claim_C10 (c : cache) (key : String) (v : GoVal) (now : Int) :
    SetDefault c key v now = SetDefaultSpec c key v now
    ∧ SetDefault c key v now = Set c key v DefaultExpiration now
    ∧ lookupKey (SetDefault c key v now).items key =
        some ⟨v, if 0 < c.defaultExpiration then now + c.defaultExpiration
          else 0⟩
    ∧ (∀ k', k' ≠ key →
        lookupKey (SetDefault c key v now).items k' = lookupKey c.items k') := by
  refine ⟨rfl, rfl, ?_, fun k' hk => ?_⟩
  · show lookupKey (Set c key v DefaultExpiration now).items key = _
    simp only [Set, if_true]
    rw [lookupKey_setItem, if_pos rfl]
  · show lookupKey (Set c key v DefaultExpiration now).items k' = _
    simp only [Set]
    rw [lookupKey_setItem, if_neg hk]

/-- Witness for claim C10: SetDefault over the live entry of cLive
overwrites it (no failure) and leaves another key untouched. -/
theorem claim_C10_witness :
    lookupKey (SetDefault cLive ("k") (GoVal.vInt 1) 3).items ("a") =
      lookupKey cLive.items ("a")
    ∧ lookupKey (SetDefault cLive ("k") (GoVal.vInt 1) 3).items ("k") =
      some ⟨GoVal.vInt 1, 0⟩ :=
  ⟨(claim_C10 cLive ("k") (GoVal.vInt 1) 3).2.2.2 ("a") (by decide),
    ((claim_C10 cLive ("k") (GoVal.vInt 1) 3).2.2.1).trans (by decide)⟩

end Veloce
